import Mathlib

/-!
Shallow embedding of the wireguard-telegram-bot provisioning core
(bot/storage.py, bot/wg.py, bot/vless.py, bot/provision.py,
bot/vless_provision.py, and the maintenance / promo-code handlers of
bot/main.py).

Database tables are modelled as Lean lists kept in ascending rowid order:
SQLite AUTOINCREMENT appends new rows at the end and never reuses ids, so
`SELECT ... ORDER BY id DESC LIMIT 1` is `List.getLast?` and an unordered
`fetchone` on a UNIQUE column is `List.find?`.  Subprocess calls to the
`wg` tool and to xray/systemctl are modelled by boolean success oracles
(the stderr text of a failure is an opaque string parameter), and the live
daemon state (the wg interface runtime peer table, the xray client list)
is carried explicitly in a `World` record next to the store.
-/

namespace WGBot

/-! ## Data model (bot/storage.py, CREATE TABLE statements) -/

/-- Row of the `peers` table (WireGuard peers).  The implicit
AUTOINCREMENT `id` column is represented by the position of the row in
the table list. -/
structure Peer where
  telegram_id : Int
  name : String
  private_key : String
  public_key : String
  ip : String
  created_at : Int
  expires_at : Option Int
  enabled : Bool
deriving Repr, DecidableEq

/-- Row of the `vless_peers` table. -/
structure VlessPeer where
  telegram_id : Int
  name : String
  uuid : String
  created_at : Int
  expires_at : Option Int
  enabled : Bool
deriving Repr, DecidableEq

/-- Row of the `promo_codes` table. -/
structure PromoCode where
  code : String
  days : Int
  created_at : Int
  created_by : Int
  activated_at : Option Int
  activated_by : Option Int
deriving Repr, DecidableEq

/-- The JSON value stored under the `protocol_policy` key of the
`settings` table (storage.get_protocol_policy / set_protocol_policy). -/
structure ProtocolPolicy where
  wireguard_enabled : Bool
  vless_enabled : Bool
  primary_protocol : String
deriving Repr, DecidableEq

/-- The whole SQLite database.  The `settings` table only ever holds the
single `protocol_policy` key, so it is modelled as an optional policy. -/
structure Store where
  peers : List Peer
  vless_peers : List VlessPeer
  promo_codes : List PromoCode
  protocol_policy : Option ProtocolPolicy
deriving Repr, DecidableEq

/-! ## storage.py operations -/

/-- First IP issued by bot (reserve lower range for manual peers). -/
def FIRST_CLIENT_IP : Nat := 10

/-- Python `str.split(sep)` for a one-character separator, on the
character list of the string: every occurrence separates, empty pieces
are kept, and the result is always non-empty. -/
def splitOnChar (sep : Char) : List Char → List (List Char)
  | [] => [[]]
  | c :: rest =>
    let r := splitOnChar sep rest
    if c = sep then [] :: r
    else
      match r with
      | [] => [[c]]
      | h :: t => (c :: h) :: t

/-- Python `int(s)` on a string of decimal digits (the only shape it is
applied to in this program; on other input Python raises `ValueError`,
which no state considered here reaches — we default to 0). -/
def pyDigitsToNat (cs : List Char) : Nat :=
  cs.foldl (fun a c => a * 10 + (c.toNat - 48)) 0

/-- The expression `int(last_ip.split(".")[-1])` of storage.get_next_ip. -/
def lastOctet (ip : String) : Nat :=
  pyDigitsToNat ((splitOnChar '.' ip.data).getLastD [])

/-- storage.get_peer_by_telegram_id: `SELECT * FROM peers WHERE
telegram_id = ?` with `fetchone` (the column is UNIQUE). -/
def get_peer_by_telegram_id (rows : List Peer) (tid : Int) : Option Peer :=
  rows.find? (fun p => p.telegram_id == tid)

/-- storage.create_peer: INSERT with `created_at = now` and `enabled = 1`. -/
def create_peer (rows : List Peer) (tid : Int) (name private_key public_key ip : String)
    (now : Int) (expires_at : Option Int) : List Peer :=
  rows ++ [⟨tid, name, private_key, public_key, ip, now, expires_at, true⟩]

/-- storage.update_expiry: `UPDATE peers SET expires_at = ? WHERE telegram_id = ?`. -/
def update_expiry (rows : List Peer) (tid : Int) (expires_at : Int) : List Peer :=
  rows.map (fun p => if p.telegram_id == tid then { p with expires_at := some expires_at } else p)

/-- storage.set_enabled: `UPDATE peers SET enabled = ? WHERE telegram_id = ?`. -/
def set_enabled (rows : List Peer) (tid : Int) (enabled : Bool) : List Peer :=
  rows.map (fun p => if p.telegram_id == tid then { p with enabled := enabled } else p)

/-- storage.delete_peer: `DELETE FROM peers WHERE telegram_id = ?`. -/
def delete_peer (rows : List Peer) (tid : Int) : List Peer :=
  rows.filter (fun p => !(p.telegram_id == tid))

/-- storage.get_peers_for_restore: enabled rows whose expiry is NULL or
still in the future, in id order. -/
def get_peers_for_restore (now : Int) (rows : List Peer) : List Peer :=
  rows.filter (fun p =>
    p.enabled && (match p.expires_at with | none => true | some e => now < e))

/-- storage.get_expired_peers: enabled rows whose expiry is non-NULL and
has passed, in id order. -/
def get_expired_peers (now : Int) (rows : List Peer) : List Peer :=
  rows.filter (fun p =>
    p.enabled && (match p.expires_at with | none => false | some e => e ≤ now))

/-- storage.get_next_ip: `SELECT ip FROM peers ORDER BY id DESC LIMIT 1`,
then the last dot-separated field of that ip plus one, rendered after the
prefix; the reserved offset when the table is empty.  (Source parameter
name: `subnet_prefix`.) -/
def get_next_ip (rows : List Peer) (subnetPfx : String := "10.8.0.") : String :=
  match rows.getLast? with
  | none => subnetPfx ++ Nat.repr FIRST_CLIENT_IP
  | some row => subnetPfx ++ Nat.repr (lastOctet row.ip + 1)

/-- storage.get_promo_code: `SELECT * FROM promo_codes WHERE code = ?`. -/
def get_promo_code (rows : List PromoCode) (code : String) : Option PromoCode :=
  rows.find? (fun r => r.code == code)

/-- storage.save_promo_code. -/
def save_promo_code (rows : List PromoCode) (code : String) (days : Int)
    (now created_by : Int) : List PromoCode :=
  rows ++ [⟨code, days, now, created_by, none, none⟩]

/-- storage.activate_promo_code: sets `activated_at` / `activated_by`. -/
def activate_promo_code (rows : List PromoCode) (code : String) (now activated_by : Int) :
    List PromoCode :=
  rows.map (fun r =>
    if r.code == code then { r with activated_at := some now, activated_by := some activated_by }
    else r)

/-- storage.create_vless_peer. -/
def create_vless_peer (rows : List VlessPeer) (tid : Int) (name uuid : String)
    (now : Int) (expires_at : Option Int) : List VlessPeer :=
  rows ++ [⟨tid, name, uuid, now, expires_at, true⟩]

/-- storage.get_vless_peer_by_telegram_id. -/
def get_vless_peer_by_telegram_id (rows : List VlessPeer) (tid : Int) : Option VlessPeer :=
  rows.find? (fun p => p.telegram_id == tid)

/-- storage.delete_vless_peer. -/
def delete_vless_peer (rows : List VlessPeer) (tid : Int) : List VlessPeer :=
  rows.filter (fun p => !(p.telegram_id == tid))

/-- storage.set_vless_enabled. -/
def set_vless_enabled (rows : List VlessPeer) (tid : Int) (enabled : Bool) : List VlessPeer :=
  rows.map (fun p => if p.telegram_id == tid then { p with enabled := enabled } else p)

/-- storage.get_vless_peers_for_restore. -/
def get_vless_peers_for_restore (now : Int) (rows : List VlessPeer) : List VlessPeer :=
  rows.filter (fun p =>
    p.enabled && (match p.expires_at with | none => true | some e => now < e))

/-- storage.get_expired_vless_peers. -/
def get_expired_vless_peers (now : Int) (rows : List VlessPeer) : List VlessPeer :=
  rows.filter (fun p =>
    p.enabled && (match p.expires_at with | none => false | some e => e ≤ now))

/-- storage.get_protocol_policy: the stored policy, or the default
(WireGuard enabled and primary, VLESS disabled) when the key is unset. -/
def get_protocol_policy (s : Option ProtocolPolicy) : ProtocolPolicy :=
  s.getD ⟨true, false, "wireguard"⟩

/-- storage.set_protocol_policy: runs the four validation checks in
source order before touching the settings table; a failed check raises
`ValueError` (modelled as `some message`) and leaves the stored policy
unchanged, otherwise the policy is written.  (The source messages quote
the protocol names with apostrophes; the quotes are elided here.) -/
def set_protocol_policy (s : Option ProtocolPolicy)
    (wireguard_enabled vless_enabled : Bool) (primary_protocol : String) :
    Option ProtocolPolicy × Option String :=
  if !wireguard_enabled && !vless_enabled then
    (s, some "At least one protocol must be enabled")
  else if !(primary_protocol == "wireguard" || primary_protocol == "vless") then
    (s, some "Primary protocol must be wireguard or vless")
  else if primary_protocol == "wireguard" && !wireguard_enabled then
    (s, some "Primary protocol must be enabled")
  else if primary_protocol == "vless" && !vless_enabled then
    (s, some "Primary protocol must be enabled")
  else
    (some ⟨wireguard_enabled, vless_enabled, primary_protocol⟩, none)

/-! ## wg.py — point-to-point daemon adapter -/

/-- Environment configuration of wg.py, fixed at process start.
`server_public_key` is the content of the file at
WG_SERVER_PUBLIC_KEY_PATH, read (and stripped) by get_server_public_key
on every render; a fixed server key file makes it a constant. -/
structure WgEnv where
  server_public_key : String
  endpoint : String
  allowed_ips : String
  dns : String
deriving Repr, DecidableEq

/-- wg.generate_client_config: pure formatting of the client descriptor
(an f-string in the source; rebuilt here by concatenation). -/
def generate_client_config (env : WgEnv) (client_private_key client_ip : String) : String :=
  "[Interface]\nPrivateKey = " ++ client_private_key ++
  "\nAddress = " ++ client_ip ++ "/32" ++
  "\nDNS = " ++ env.dns ++
  "\n\n[Peer]\nPublicKey = " ++ env.server_public_key ++
  "\nEndpoint = " ++ env.endpoint ++
  "\nAllowedIPs = " ++ env.allowed_ips ++
  "\nPersistentKeepalive = 25\n"

/-- The wg interface runtime peer table: public key paired with its
allowed-ips string, in insertion order. -/
abbrev WgLive : Type := List (String × String)

/-- Effect of a successful `wg set <if> peer <pub> allowed-ips <ip>/32`
(wg.enable_peer): replaces the allowed-ips of an already present peer,
or adds the peer. -/
def wg_enable_peer (live : WgLive) (public_key ip : String) : WgLive :=
  let entry := (public_key, ip ++ "/32")
  if live.any (fun kv => kv.1 == public_key) then
    live.map (fun kv => if kv.1 == public_key then entry else kv)
  else live ++ [entry]

/-- Effect of a successful `wg set <if> peer <pub> remove` (wg.disable_peer). -/
def wg_disable_peer (live : WgLive) (public_key : String) : WgLive :=
  live.filter (fun kv => !(kv.1 == public_key))

/-- Membership of a peer (by public key) in the wg runtime peer table. -/
def hasWgPeer (live : WgLive) (public_key : String) : Bool :=
  live.any (fun kv => kv.1 == public_key)

/-! ## vless.py — relay (xray) daemon adapter -/

/-- Environment configuration of vless.py.  `config_pfx` is
XRAY_CONFIG_PREFIX (default "VPN"); `short_id` is XRAY_SHORT_ID, the
empty string when unset. -/
structure VlessEnv where
  server_name : String
  server_address : String
  public_key : String
  short_id : String
  config_pfx : String
deriving Repr, DecidableEq

/-- Uppercase hexadecimal digit, as produced by urllib.parse.quote. -/
def hexDigitUpper (n : Nat) : Char :=
  if n < 10 then Char.ofNat (48 + n) else Char.ofNat (65 + (n - 10))

/-- Characters urllib.parse.quote never encodes (safe per RFC 3986
unreserved: letters, digits, and `_.-~`; the call passes an empty
extra-safe set). -/
def quoteSafeByte (b : UInt8) : Bool :=
  (65 ≤ b.toNat && b.toNat ≤ 90) || (97 ≤ b.toNat && b.toNat ≤ 122) ||
  (48 ≤ b.toNat && b.toNat ≤ 57) || b.toNat == 95 || b.toNat == 46 ||
  b.toNat == 45 || b.toNat == 126

/-- urllib.parse.quote(s, safe=""): percent-encode every non-safe UTF-8
byte of the string. -/
def pquote (s : String) : String :=
  String.mk ((s.data.flatMap String.utf8EncodeChar).flatMap (fun b =>
    if quoteSafeByte b then [Char.ofNat b.toNat]
    else ['%', hexDigitUpper (b.toNat / 16), hexDigitUpper (b.toNat % 16)]))

/-- vless.generate_vless_link: builds the `vless://` URI.  The parameter
dictionary preserves insertion order; `sid` is appended only when a
short id is configured, and an empty user name (Python falsy) falls back
to the bare prefix. -/
def generate_vless_link (env : VlessEnv) (uuid user_name : String) : String :=
  let params := [("type", "tcp"), ("security", "reality"), ("pbk", env.public_key),
    ("fp", "chrome"), ("sni", env.server_name), ("flow", "xtls-rprx-vision")]
  let params := if env.short_id ≠ "" then params ++ [("sid", env.short_id)] else params
  let param_str := String.intercalate "&" (params.map (fun kv => kv.1 ++ "=" ++ kv.2))
  let display_name := if user_name ≠ "" then env.config_pfx ++ " - " ++ user_name
    else env.config_pfx
  "vless://" ++ uuid ++ "@" ++ env.server_address ++ "?" ++ param_str ++ "#" ++
    pquote display_name

/-- Client entry of the xray inbound client list. -/
structure XrayClient where
  id : String
  email : String
deriving Repr, DecidableEq

/-- Effect of a successful vless.enable_client on the xray client list:
no-op when the uuid is already present, otherwise append
`{id, flow, email or user_<uuid[:8]>}` (the flow field is the same for
every client and is omitted from the model). -/
def vless_enable_client (clients : List XrayClient) (uuid email : String) : List XrayClient :=
  if clients.any (fun c => c.id == uuid) then clients
  else clients ++ [⟨uuid, if email ≠ "" then email else "user_" ++ String.mk (uuid.data.take 8)⟩]

/-- Effect of a successful vless.disable_client: filter the uuid out. -/
def vless_disable_client (clients : List XrayClient) (uuid : String) : List XrayClient :=
  clients.filter (fun c => !(c.id == uuid))

/-- Membership of a client (by uuid) in the xray client list. -/
def hasXrayClient (clients : List XrayClient) (uuid : String) : Bool :=
  clients.any (fun c => c.id == uuid)

/-! ## Combined state: the store plus the live daemon state -/

/-- The shared mutable state: the SQLite store, the wg interface runtime
peer table, and the xray client list. -/
structure World where
  store : Store
  wg_live : WgLive
  xray_clients : List XrayClient
deriving DecidableEq

/-! ## provision.py — point-to-point provisioning engine -/

/-- Outcome of provision.get_or_create_peer_and_config: the returned
config text, a raised ProvisionError, or an uncaught wg.WireGuardError
propagating out of the call (the wg subprocess failed and nothing in
provision.py catches it). -/
inductive WgProvision where
  | config (text : String)
  | provisionError (msg : String)
  | wireguardError (msg : String)
deriving Repr, DecidableEq

/-- provision.get_or_create_peer_and_config.  Nondeterministic inputs are
parameters: `now` (time.time()), the freshly generated keypair
(wg.generate_keypair), and whether the `wg set` daemon-activation call
succeeds (`wg_set_ok`, with `wg_err` the stderr text of a failure).
Returns the outcome together with the state after the call: when the
daemon activation fails the freshly inserted row is NOT removed — the
source has no try/except around step 5 — and the raw WireGuardError
escapes. -/
def get_or_create_peer_and_config (env : WgEnv) (now : Int)
    (fresh_private fresh_public : String) (wg_set_ok : Bool) (wg_err : String)
    (w : World) (telegram_id : Int) (name : String) (ttl_days : Option Int) :
    WgProvision × World :=
  match get_peer_by_telegram_id w.store.peers telegram_id with
  | some peer =>
    if peer.enabled then
      (.config (generate_client_config env peer.private_key peer.ip), w)
    else
      (.provisionError "Access is disabled or expired", w)
  | none =>
    let ip := get_next_ip w.store.peers
    let expires_at := ttl_days.map (fun d => now + d * 86400)
    let w1 := { w with store := { w.store with
      peers := create_peer w.store.peers telegram_id name fresh_private fresh_public ip now expires_at } }
    if wg_set_ok then
      (.config (generate_client_config env fresh_private ip),
       { w1 with wg_live := wg_enable_peer w1.wg_live fresh_public ip })
    else
      (.wireguardError wg_err, w1)

/-! ## vless_provision.py — relay provisioning engine -/

/-- Outcome of vless_provision.get_or_create_vless_config. -/
inductive VlessProvision where
  | link (text : String)
  | vlessProvisionError (msg : String)
deriving Repr, DecidableEq

/-- vless_provision.get_or_create_vless_config.  `fresh_uuid` is the
freshly generated uuid4; `xray_ok` is whether vless.enable_client
succeeds (`xray_err` its message).  On daemon failure the engine rolls
the insert back (storage.delete_vless_peer) and raises its own
VLESSProvisionError. -/
def get_or_create_vless_config (env : VlessEnv) (now : Int)
    (fresh_uuid : String) (xray_ok : Bool) (xray_err : String)
    (w : World) (telegram_id : Int) (name : String) (ttl_days : Option Int) :
    VlessProvision × World :=
  match get_vless_peer_by_telegram_id w.store.vless_peers telegram_id with
  | some peer =>
    if peer.enabled then
      (.link (generate_vless_link env peer.uuid name), w)
    else
      (.vlessProvisionError "Access is disabled or expired", w)
  | none =>
    let expires_at := ttl_days.map (fun d => now + d * 86400)
    let w1 := { w with store := { w.store with
      vless_peers := create_vless_peer w.store.vless_peers telegram_id name fresh_uuid now expires_at } }
    if xray_ok then
      (.link (generate_vless_link env fresh_uuid name),
       { w1 with xray_clients :=
          vless_enable_client w1.xray_clients fresh_uuid ("tg_" ++ toString telegram_id) })
    else
      (.vlessProvisionError ("Failed to enable VLESS client: " ++ xray_err),
       { w1 with store := { w1.store with
          vless_peers := delete_vless_peer w1.store.vless_peers telegram_id } })

/-! ## main.py — startup restore and expiry sweep -/

/-- One iteration of the WireGuard restore loop of
main.restore_peers_on_startup: on wg success the peer is pushed into the
interface, on failure the error is logged and the loop continues; the
store is never touched. -/
def restoreStepWg (okW : String → Bool) (w : World) (p : Peer) : World :=
  if okW p.public_key then { w with wg_live := wg_enable_peer w.wg_live p.public_key p.ip }
  else w

/-- One iteration of the VLESS restore loop (calls
vless.enable_client(peer uuid, peer name)). -/
def restoreStepVl (okX : String → Bool) (w : World) (p : VlessPeer) : World :=
  if okX p.uuid then
    { w with xray_clients := vless_enable_client w.xray_clients p.uuid p.name }
  else w

/-- WireGuard half of main.restore_peers_on_startup (the policy is read
once, from the incoming state, as in the source). -/
def restoreWg (now : Int) (okW : String → Bool) (w : World) : World :=
  if (get_protocol_policy w.store.protocol_policy).wireguard_enabled then
    (get_peers_for_restore now w.store.peers).foldl (restoreStepWg okW) w
  else w

/-- main.restore_peers_on_startup: for each policy-enabled protocol,
fetch the restorable peers and enable each in the daemon; individual
failures (`okW` / `okX` false) are logged and skipped. -/
def restore_peers_on_startup (now : Int) (okW okX : String → Bool) (w : World) : World :=
  if (get_protocol_policy w.store.protocol_policy).vless_enabled then
    (get_vless_peers_for_restore now (restoreWg now okW w).store.vless_peers).foldl
      (restoreStepVl okX) (restoreWg now okW w)
  else restoreWg now okW w

/-- One iteration of the WireGuard expiry loop of main.expire_peers_job:
`wg.disable_peer` first; only when it succeeds does the flow reach
`storage.set_enabled(tid, False)` — a WireGuardError skips both. -/
def expireStepWg (okW : String → Bool) (w : World) (p : Peer) : World :=
  if okW p.public_key then
    { w with wg_live := wg_disable_peer w.wg_live p.public_key,
             store := { w.store with peers := set_enabled w.store.peers p.telegram_id false } }
  else w

/-- One iteration of the VLESS expiry loop. -/
def expireStepVl (okX : String → Bool) (w : World) (p : VlessPeer) : World :=
  if okX p.uuid then
    { w with xray_clients := vless_disable_client w.xray_clients p.uuid,
             store := { w.store with
               vless_peers := set_vless_enabled w.store.vless_peers p.telegram_id false } }
  else w

/-- WireGuard half of main.expire_peers_job (the policy is read once,
from the incoming state, as in the source). -/
def expireJobWg (now : Int) (okW : String → Bool) (w : World) : World :=
  if (get_protocol_policy w.store.protocol_policy).wireguard_enabled then
    (get_expired_peers now w.store.peers).foldl (expireStepWg okW) w
  else w

/-- main.expire_peers_job: for each policy-enabled protocol, fetch the
expired-but-still-enabled peers and disable each, flipping the store
flag only after daemon success. -/
def expire_peers_job (now : Int) (okW okX : String → Bool) (w : World) : World :=
  if (get_protocol_policy w.store.protocol_policy).vless_enabled then
    (get_expired_vless_peers now (expireJobWg now okW w).store.vless_peers).foldl
      (expireStepVl okX) (expireJobWg now okW w)
  else expireJobWg now okW w

/-! ## main.py — promo-code redemption (handle_promo_code) -/

/-- Python `text.strip().upper()` (ASCII-faithful: names and codes here
are ASCII). -/
def pyStripUpper (s : String) : String :=
  String.mk (((s.data.dropWhile Char.isWhitespace).reverse.dropWhile
    Char.isWhitespace).reverse.map Char.toUpper)

/-- The regex `^[A-Z0-9]{2}-[A-Z]{4}-\d+D$` of handle_promo_code,
decidably: exactly three hyphen-separated fields of the required shapes
(none of the character classes contains a hyphen, so splitting on the
hyphen is equivalent to the anchored regex). -/
def promo_format_ok (code : String) : Bool :=
  match splitOnChar '-' code.data with
  | [a, b, c] =>
    a.length == 2 && a.all (fun ch => ch.isUpper || ch.isDigit) &&
    b.length == 4 && b.all Char.isUpper &&
    decide (2 ≤ c.length) && (c.getLastD ' ' == 'D') &&
    (c.dropLast.all Char.isDigit)
  | _ => false

/-- The expression `int(code.split("-")[-1].rstrip("D"))` of
handle_promo_code: Python rstrip removes every trailing `D`. -/
def promo_code_days (code : String) : Int :=
  (pyDigitsToNat (((splitOnChar '-' code.data).getLastD []).reverse.dropWhile
    (fun ch => ch == 'D')).reverse : Nat)

/-- Observable outcome of one handle_promo_code message (which reply the
user gets, or which exception escapes the handler). -/
inductive PromoOutcome where
  | notWaiting
  | badFormat
  | notFound
  | alreadyActivated
  | corrupted
  | extended (days newExpires : Int)
  | created (days shownExpires : Int)
  | createFailed (msg : String)
  | uncaughtWireguardError (msg : String)
deriving Repr, DecidableEq

/-- Result of one handle_promo_code message: outcome, the
`waiting_for_promo` flag afterwards, and the state afterwards. -/
structure PromoStep where
  outcome : PromoOutcome
  waiting : Bool
  world : World
deriving DecidableEq

/-- main.handle_promo_code, one incoming text message.  Parameters as in
the source: `waiting` is `context.user_data["waiting_for_promo"]`, `text`
the message text, `user_id` / `user_name` the sender; `now` is
time.time(), `fresh_private` / `fresh_public` the keypair a first-time
provision would generate, and `wg_set_ok` / `wg_err` the outcome of the
`wg set` call it (or the re-enable branch) would make.

Faithful details: the day-count embedded in the code must equal the
stored `days` (corruption guard, checked before the waiting flag is
reset); an existing peer gets `max(now, current expiry or now) +
days*86400` — Python `or` also hands an expiry equal to 0 to the
fallback; a missing peer is provisioned through
get_or_create_peer_and_config — the source passes the absolute
`expires_at` timestamp as the `ttl_days` positional argument; the code
is marked activated only after the peer mutation, and only
ProvisionError is caught (a WireGuardError escapes the handler). -/
def handle_promo_code (env : WgEnv) (now : Int)
    (fresh_private fresh_public : String) (wg_set_ok : Bool) (wg_err : String)
    (waiting : Bool) (text : String) (user_id : Int) (user_name : String)
    (w : World) : PromoStep :=
  if !waiting then ⟨.notWaiting, waiting, w⟩
  else
    let code := pyStripUpper text
    if !promo_format_ok code then ⟨.badFormat, waiting, w⟩
    else
      match get_promo_code w.store.promo_codes code with
      | none => ⟨.notFound, waiting, w⟩
      | some promo =>
        match promo.activated_at with
        | some _ => ⟨.alreadyActivated, waiting, w⟩
        | none =>
          if promo_code_days code != promo.days then ⟨.corrupted, waiting, w⟩
          else
            let days := promo.days
            match get_peer_by_telegram_id w.store.peers user_id with
            | some peer =>
              let current0 := match peer.expires_at with
                | none => now
                | some e => if e = 0 then now else e
              let current := if current0 < now then now else current0
              let new_expires := current + days * 24 * 60 * 60
              let w1 := { w with store := { w.store with
                peers := update_expiry w.store.peers user_id new_expires } }
              let w2 :=
                if !peer.enabled then
                  if wg_set_ok then
                    { w1 with wg_live := wg_enable_peer w1.wg_live peer.public_key peer.ip,
                              store := { w1.store with
                                peers := set_enabled w1.store.peers user_id true } }
                  else w1
                else w1
              let w3 := { w2 with store := { w2.store with
                promo_codes := activate_promo_code w2.store.promo_codes code now user_id } }
              ⟨.extended days new_expires, false, w3⟩
            | none =>
              let expires_at := now + days * 24 * 60 * 60
              match get_or_create_peer_and_config env now fresh_private fresh_public
                  wg_set_ok wg_err w user_id user_name (some expires_at) with
              | (.config _, w1) =>
                let w2 := { w1 with store := { w1.store with
                  promo_codes := activate_promo_code w1.store.promo_codes code now user_id } }
                ⟨.created days expires_at, false, w2⟩
              | (.provisionError msg, w1) => ⟨.createFailed msg, false, w1⟩
              | (.wireguardError msg, w1) => ⟨.uncaughtWireguardError msg, false, w1⟩

/-! ## Auxiliary definitions used only by the theorems -/

/-- Store of a freshly initialised database (init_db on a new file). -/
def emptyStore : Store := ⟨[], [], [], none⟩

/-- World with a fresh database and empty daemon state. -/
def emptyWorld : World := ⟨emptyStore, [], []⟩

/-- Next-address function as the spec words it (for the refinement
comparison of the allocator): the prefix followed by the maximum
allocated last octet among current rows plus one, or the reserved offset
when the table is empty.  This definition follows the spec sentence, not
the source. -/
def spec_next_ip (rows : List Peer) (subnetPfx : String := "10.8.0.") : String :=
  match rows with
  | [] => subnetPfx ++ Nat.repr FIRST_CLIENT_IP
  | _ => subnetPfx ++ Nat.repr ((rows.map (fun p => lastOctet p.ip)).foldr max 0 + 1)

/-- N sequential, non-concurrent first-time provisions: fold the
provisioning entrypoint over a list of identities, every daemon call
succeeding, fresh keys drawn per identity, no ttl. -/
def provisionRun (env : WgEnv) (now : Int) (keys : Int → String × String)
    (ids : List Int) (w : World) : World :=
  ids.foldl (fun acc tid =>
    (get_or_create_peer_and_config env now (keys tid).1 (keys tid).2 true "" acc
      tid "client" none).2) w

/-! ## Decimal rendering round-trip

storage.get_next_ip writes the new octet with `str` and later reads it
back with `int`; the allocator theorems need
`int(str(m)) = m`, i.e. `pyDigitsToNat (Nat.repr m).data = m`. -/

theorem digitChar_toNat_sub (d : Nat) (h : d < 10) :
    (Nat.digitChar d).toNat - 48 = d := by
  interval_cases d <;> decide

theorem digitChar_isDigit (d : Nat) (h : d < 10) :
    (Nat.digitChar d).isDigit = true := by
  interval_cases d <;> decide

theorem pyDigitsToNat_append (xs ys : List Char) :
    pyDigitsToNat (xs ++ ys) =
      ys.foldl (fun a c => a * 10 + (c.toNat - 48)) (pyDigitsToNat xs) := by
  simp [pyDigitsToNat, List.foldl_append]

theorem toDigitsCore_spec (fuel : Nat) :
    ∀ n ds, n < 10 ^ (fuel + 1) →
    ∃ cs, Nat.toDigitsCore 10 (fuel + 1) n ds = cs ++ ds ∧ cs ≠ [] ∧
      (∀ c ∈ cs, c.isDigit = true) ∧ pyDigitsToNat cs = n := by
  induction fuel with
  | zero =>
    intro n ds h
    have hn : n < 10 := by simpa using h
    have hdiv : n / 10 = 0 := Nat.div_eq_of_lt hn
    have hmod : n % 10 = n := Nat.mod_eq_of_lt hn
    refine ⟨[Nat.digitChar (n % 10)], ?_, by simp, ?_, ?_⟩
    · simp [Nat.toDigitsCore, hdiv]
    · intro c hc
      simp at hc
      subst hc
      exact digitChar_isDigit _ (by omega)
    · simp [pyDigitsToNat, hmod, digitChar_toNat_sub n hn]
  | succ f ih =>
    intro n ds h
    by_cases hdiv : n / 10 = 0
    · have hn : n < 10 := by omega
      have hmod : n % 10 = n := Nat.mod_eq_of_lt hn
      refine ⟨[Nat.digitChar (n % 10)], ?_, by simp, ?_, ?_⟩
      · simp [Nat.toDigitsCore, hdiv]
      · intro c hc
        simp at hc
        subst hc
        exact digitChar_isDigit _ (by omega)
      · simp [pyDigitsToNat, hmod, digitChar_toNat_sub n hn]
    · have hlt : n / 10 < 10 ^ (f + 1) := by
        rw [Nat.div_lt_iff_lt_mul (by norm_num)]
        calc n < 10 ^ (f + 1 + 1) := h
        _ = 10 ^ (f + 1) * 10 := by ring
      obtain ⟨cs, hcs, hne, hdig, hval⟩ := ih (n / 10) (Nat.digitChar (n % 10) :: ds) hlt
      refine ⟨cs ++ [Nat.digitChar (n % 10)], ?_, by simp, ?_, ?_⟩
      · have : Nat.toDigitsCore 10 (f + 1 + 1) n ds =
            Nat.toDigitsCore 10 (f + 1) (n / 10) (Nat.digitChar (n % 10) :: ds) := by
          simp [Nat.toDigitsCore, hdiv]
        rw [this, hcs]
        simp
      · intro c hc
        rcases List.mem_append.1 hc with h1 | h2
        · exact hdig c h1
        · simp at h2
          subst h2
          exact digitChar_isDigit _ (Nat.mod_lt _ (by norm_num))
      · rw [pyDigitsToNat_append, hval]
        simp [digitChar_toNat_sub (n % 10) (Nat.mod_lt _ (by norm_num))]
        omega

theorem repr_data_spec (n : Nat) :
    (∀ c ∈ (Nat.repr n).data, c.isDigit = true) ∧
      pyDigitsToNat (Nat.repr n).data = n := by
  have hlt : n < 10 ^ (n + 1) := by
    calc n < 2 ^ n := Nat.lt_two_pow n
    _ ≤ 10 ^ n := Nat.pow_le_pow_left (by norm_num) n
    _ ≤ 10 ^ (n + 1) := Nat.pow_le_pow_right (by norm_num) (Nat.le_succ n)
  obtain ⟨cs, hcs, _, hdig, hval⟩ := toDigitsCore_spec n n [] hlt
  have hdata : (Nat.repr n).data = cs := by
    show (Nat.toDigits 10 n).asString.data = cs
    simp [Nat.toDigits, List.asString, hcs]
  rw [hdata]
  exact ⟨hdig, hval⟩

theorem pyDigitsToNat_repr (n : Nat) : pyDigitsToNat (Nat.repr n).data = n :=
  (repr_data_spec n).2

theorem repr_no_dot (n : Nat) : ∀ c ∈ (Nat.repr n).data, ¬(c = '.') := by
  intro c hc hdot
  have := (repr_data_spec n).1 c hc
  subst hdot
  simp [Char.isDigit] at this

theorem splitOnChar_of_not_mem (sep : Char) (cs : List Char)
    (h : ∀ c ∈ cs, ¬(c = sep)) : splitOnChar sep cs = [cs] := by
  induction cs with
  | nil => rfl
  | cons c rest ih =>
    have hc : ¬(c = sep) := h c (by simp)
    have ht : splitOnChar sep rest = [rest] := ih (fun x hx => h x (by simp [hx]))
    simp [splitOnChar, hc, ht]

theorem lastOctet_render (m : Nat) : lastOctet ("10.8.0." ++ Nat.repr m) = m := by
  have hdata : ("10.8.0." ++ Nat.repr m).data = "10.8.0.".data ++ (Nat.repr m).data := by
    cases (Nat.repr m)
    rfl
  have hsplit : splitOnChar '.' ("10.8.0." ++ Nat.repr m).data =
      [['1', '0'], ['8'], ['0'], (Nat.repr m).data] := by
    rw [hdata]
    have ht := splitOnChar_of_not_mem '.' (Nat.repr m).data (repr_no_dot m)
    show splitOnChar '.' ('1' :: '0' :: '.' :: '8' :: '.' :: '0' :: '.' :: (Nat.repr m).data) = _
    simp [splitOnChar, ht]
  show pyDigitsToNat ((splitOnChar '.' ("10.8.0." ++ Nat.repr m).data).getLastD []) = m
  rw [hsplit]
  simpa using pyDigitsToNat_repr m

/-! ## Lemmas about sequential provisioning (claim C3) -/

theorem get_peer_none_of_not_mem (rows : List Peer) (tid : Int)
    (h : tid ∉ rows.map (fun p => p.telegram_id)) :
    get_peer_by_telegram_id rows tid = none := by
  unfold get_peer_by_telegram_id
  rw [List.find?_eq_none]
  intro p hp
  simp only [beq_iff_eq]
  intro hEq
  exact h (by simpa [hEq] using List.mem_map_of_mem (fun p => p.telegram_id) hp)

theorem get_or_create_fresh_peers (env : WgEnv) (now : Int) (priv pub wg_err : String)
    (ok : Bool) (w : World) (tid : Int) (name : String) (ttl : Option Int)
    (h : get_peer_by_telegram_id w.store.peers tid = none) :
    ((get_or_create_peer_and_config env now priv pub ok wg_err w tid name ttl).2).store.peers =
      w.store.peers ++ [⟨tid, name, priv, pub, get_next_ip w.store.peers, now,
        ttl.map (fun d => now + d * 86400), true⟩] := by
  unfold get_or_create_peer_and_config
  rw [h]
  cases ok <;> simp [create_peer]

/-- Shape of the address column after sequential provisioning: target
sequence of the induction. -/
def seqIps (k : Nat) : List String :=
  (List.range k).map (fun j => "10.8.0." ++ Nat.repr (FIRST_CLIENT_IP + j))

theorem get_next_ip_seq (rows : List Peer) (k : Nat)
    (h : rows.map (fun p => p.ip) = seqIps k) :
    get_next_ip rows = "10.8.0." ++ Nat.repr (FIRST_CLIENT_IP + k) := by
  cases k with
  | zero =>
    have hnil : rows = [] := by
      have h0 : rows.map (fun p => p.ip) = [] := by simpa [seqIps] using h
      exact List.map_eq_nil_iff.mp h0
    simp [hnil, get_next_ip]
  | succ k' =>
    have hlast : (rows.map (fun p => p.ip)).getLast? =
        some ("10.8.0." ++ Nat.repr (FIRST_CLIENT_IP + k')) := by
      rw [h]
      simp [seqIps, List.range_succ]
    rw [List.getLast?_map] at hlast
    match hrow : rows.getLast? with
    | none => rw [hrow] at hlast; simp at hlast
    | some row =>
      rw [hrow] at hlast
      simp only [Option.map_some', Option.some.injEq] at hlast
      unfold get_next_ip
      rw [hrow]
      show "10.8.0." ++ Nat.repr (lastOctet row.ip + 1) = _
      rw [hlast, lastOctet_render, Nat.add_assoc]

theorem provisionRun_spec (env : WgEnv) (now : Int) (keys : Int → String × String) :
    ∀ (ids : List Int) (w : World) (k : Nat),
    ids.Nodup →
    (∀ tid ∈ ids, tid ∉ w.store.peers.map (fun p => p.telegram_id)) →
    w.store.peers.map (fun p => p.ip) = seqIps k →
    ((provisionRun env now keys ids w).store.peers.map (fun p => p.ip) =
        seqIps (k + ids.length)) ∧
      ((provisionRun env now keys ids w).store.peers.map (fun p => p.telegram_id) =
        w.store.peers.map (fun p => p.telegram_id) ++ ids) := by
  intro ids
  induction ids with
  | nil =>
    intro w k _ _ hip
    simpa [provisionRun] using hip
  | cons tid rest ih =>
    intro w k hnd hfresh hip
    have hnone : get_peer_by_telegram_id w.store.peers tid = none :=
      get_peer_none_of_not_mem _ _ (hfresh tid (by simp))
    have hstep := get_or_create_fresh_peers env now (keys tid).1 (keys tid).2 "" true w tid
      "client" none hnone
    set w' := (get_or_create_peer_and_config env now (keys tid).1 (keys tid).2 true "" w
      tid "client" none).2 with hw'
    have hrun : provisionRun env now keys (tid :: rest) w = provisionRun env now keys rest w' := by
      simp [provisionRun]
    have hip' : w'.store.peers.map (fun p => p.ip) = seqIps (k + 1) := by
      rw [hstep]
      simp only [List.map_append, hip, List.map_cons, List.map_nil]
      rw [get_next_ip_seq w.store.peers k hip]
      simp [seqIps, List.range_succ]
    have htid' : w'.store.peers.map (fun p => p.telegram_id) =
        w.store.peers.map (fun p => p.telegram_id) ++ [tid] := by
      rw [hstep]
      simp
    have hfresh' : ∀ t ∈ rest, t ∉ w'.store.peers.map (fun p => p.telegram_id) := by
      intro t ht
      rw [htid']
      simp only [List.mem_append, List.mem_singleton]
      rintro (hin | hEq)
      · exact hfresh t (by simp [ht]) hin
      · subst hEq
        exact (List.nodup_cons.1 hnd).1 ht
    obtain ⟨h1, h2⟩ := ih w' (k + 1) (List.nodup_cons.1 hnd).2 hfresh' hip'
    constructor
    · rw [hrun, h1]
      have : k + 1 + rest.length = k + (tid :: rest).length := by
        simp
        omega
      rw [this]
    · rw [hrun, h2, htid']
      simp

/-! ## Lemmas about the expiry sweep (claim C5) -/

/-- Cumulative effect of the WireGuard expiry loop on one store row: the
row is flipped to disabled exactly when some processed peer with its
telegram id had a successful daemon disable. -/
def sweepMark (okW : String → Bool) (L : List Peer) (q : Peer) : Peer :=
  if L.any (fun r => okW r.public_key && r.telegram_id == q.telegram_id) then
    { q with enabled := false }
  else q

theorem sweepMark_enabled_false (okW : String → Bool) (L : List Peer) (q : Peer) :
    sweepMark okW L { q with enabled := false } = { q with enabled := false } := by
  unfold sweepMark
  split <;> rfl

theorem expireStepWg_peers (okW : String → Bool) (w : World) (r : Peer) :
    (expireStepWg okW w r).store.peers =
      if okW r.public_key then set_enabled w.store.peers r.telegram_id false
      else w.store.peers := by
  unfold expireStepWg
  split <;> simp_all

theorem expire_fold_peers (okW : String → Bool) :
    ∀ (L : List Peer) (w : World),
    (L.foldl (expireStepWg okW) w).store.peers = w.store.peers.map (sweepMark okW L) := by
  intro L
  induction L with
  | nil =>
    intro w
    have h0 : sweepMark okW [] = fun q => q := by
      funext q
      simp [sweepMark]
    rw [List.foldl_nil, h0]
    simp
  | cons r L ih =>
    intro w
    rw [List.foldl_cons, ih, expireStepWg_peers]
    by_cases hok : okW r.public_key = true
    · rw [if_pos hok]
      unfold set_enabled
      rw [List.map_map]
      congr 1
      funext q
      show sweepMark okW L
        (if q.telegram_id == r.telegram_id then { q with enabled := false } else q) =
        sweepMark okW (r :: L) q
      by_cases htid : q.telegram_id = r.telegram_id
      · rw [if_pos (by simpa using htid), sweepMark_enabled_false]
        unfold sweepMark
        rw [if_pos]
        simp [List.any_cons, hok, htid]
      · rw [if_neg (by simpa using htid)]
        unfold sweepMark
        have : (r.telegram_id == q.telegram_id) = false := by
          simp
          exact fun hEq => htid hEq.symm
        simp [List.any_cons, this]
    · rw [if_neg hok]
      congr 1
      funext q
      unfold sweepMark
      have hok' : okW r.public_key = false := by simpa using hok
      simp [List.any_cons, hok']

theorem expire_fold_vl_frame (okX : String → Bool) :
    ∀ (L : List VlessPeer) (w : World),
    (L.foldl (expireStepVl okX) w).store.peers = w.store.peers ∧
      (L.foldl (expireStepVl okX) w).wg_live = w.wg_live := by
  intro L
  induction L with
  | nil => intro w; exact ⟨rfl, rfl⟩
  | cons r L ih =>
    intro w
    rw [List.foldl_cons]
    obtain ⟨h1, h2⟩ := ih (expireStepVl okX w r)
    rw [h1, h2]
    unfold expireStepVl
    split <;> exact ⟨rfl, rfl⟩

theorem expire_job_peers (now : Int) (okW okX : String → Bool) (w : World)
    (hpol : (get_protocol_policy w.store.protocol_policy).wireguard_enabled = true) :
    (expire_peers_job now okW okX w).store.peers =
      w.store.peers.map (sweepMark okW (get_expired_peers now w.store.peers)) := by
  have hwg : (expireJobWg now okW w).store.peers =
      w.store.peers.map (sweepMark okW (get_expired_peers now w.store.peers)) := by
    unfold expireJobWg
    rw [if_pos hpol]
    exact expire_fold_peers okW _ w
  unfold expire_peers_job
  split
  · exact ((expire_fold_vl_frame okX _ _).1).trans hwg
  · exact hwg

/-! ## Lemmas about the startup restore (claim C6) -/

theorem restore_fold_wg_store (okW : String → Bool) :
    ∀ (L : List Peer) (w : World), (L.foldl (restoreStepWg okW) w).store = w.store := by
  intro L
  induction L with
  | nil => intro w; rfl
  | cons r L ih =>
    intro w
    rw [List.foldl_cons, ih]
    unfold restoreStepWg
    split <;> rfl

theorem restore_fold_vl_store (okX : String → Bool) :
    ∀ (L : List VlessPeer) (w : World), (L.foldl (restoreStepVl okX) w).store = w.store := by
  intro L
  induction L with
  | nil => intro w; rfl
  | cons r L ih =>
    intro w
    rw [List.foldl_cons, ih]
    unfold restoreStepVl
    split <;> rfl

theorem restoreWg_store (now : Int) (okW : String → Bool) (w : World) :
    (restoreWg now okW w).store = w.store := by
  unfold restoreWg
  split
  · exact restore_fold_wg_store okW _ w
  · rfl

theorem restore_store (now : Int) (okW okX : String → Bool) (w : World) :
    (restore_peers_on_startup now okW okX w).store = w.store := by
  unfold restore_peers_on_startup
  split
  · exact (restore_fold_vl_store okX _ _).trans (restoreWg_store now okW w)
  · exact restoreWg_store now okW w

theorem hasWgPeer_enable_self (live : WgLive) (pub ip : String) :
    hasWgPeer (wg_enable_peer live pub ip) pub = true := by
  unfold wg_enable_peer hasWgPeer
  split
  · next hAny =>
    simp only [List.any_eq_true] at hAny ⊢
    obtain ⟨kv, hmem, hkv⟩ := hAny
    exact ⟨(pub, ip ++ "/32"), by
      refine List.mem_map.2 ⟨kv, hmem, ?_⟩
      rw [if_pos hkv], by simp⟩
  · simp

theorem hasWgPeer_enable_mono (live : WgLive) (pub ip pk : String)
    (h : hasWgPeer live pk = true) : hasWgPeer (wg_enable_peer live pub ip) pk = true := by
  unfold hasWgPeer at h ⊢
  unfold wg_enable_peer
  simp only [List.any_eq_true] at h ⊢
  obtain ⟨kv, hmem, hkv⟩ := h
  split
  · by_cases hpub : kv.1 == pub
    · refine ⟨(pub, ip ++ "/32"), List.mem_map.2 ⟨kv, hmem, by rw [if_pos hpub]⟩, ?_⟩
      have h1 : kv.1 = pub := by simpa using hpub
      have h2 : kv.1 = pk := by simpa using hkv
      simp [← h1, h2]
    · exact ⟨kv, List.mem_map.2 ⟨kv, hmem, by rw [if_neg (by simpa using hpub)]⟩, hkv⟩
  · exact ⟨kv, List.mem_append.2 (Or.inl hmem), hkv⟩

theorem hasXrayClient_enable_self (clients : List XrayClient) (uuid email : String) :
    hasXrayClient (vless_enable_client clients uuid email) uuid = true := by
  unfold vless_enable_client hasXrayClient
  split
  · next hAny => exact hAny
  · simp

theorem hasXrayClient_enable_mono (clients : List XrayClient) (uuid email u : String)
    (h : hasXrayClient clients u = true) :
    hasXrayClient (vless_enable_client clients uuid email) u = true := by
  unfold hasXrayClient at h ⊢
  unfold vless_enable_client
  simp only [List.any_eq_true] at h ⊢
  obtain ⟨c, hmem, hc⟩ := h
  split
  · exact ⟨c, hmem, hc⟩
  · exact ⟨c, List.mem_append.2 (Or.inl hmem), hc⟩

theorem restore_fold_wg_live_mono (okW : String → Bool) :
    ∀ (L : List Peer) (w : World) (pk : String),
    hasWgPeer w.wg_live pk = true →
    hasWgPeer ((L.foldl (restoreStepWg okW) w).wg_live) pk = true := by
  intro L
  induction L with
  | nil => intro w pk h; exact h
  | cons r L ih =>
    intro w pk h
    rw [List.foldl_cons]
    apply ih
    unfold restoreStepWg
    split
    · exact hasWgPeer_enable_mono w.wg_live r.public_key r.ip pk h
    · exact h

theorem restore_fold_wg_live_mem (okW : String → Bool) :
    ∀ (L : List Peer) (w : World) (p : Peer), p ∈ L → okW p.public_key = true →
    hasWgPeer ((L.foldl (restoreStepWg okW) w).wg_live) p.public_key = true := by
  intro L
  induction L with
  | nil => intro w p hp; simp at hp
  | cons r L ih =>
    intro w p hp hok
    rw [List.foldl_cons]
    rcases List.mem_cons.1 hp with hEq | hmem
    · subst hEq
      apply restore_fold_wg_live_mono
      unfold restoreStepWg
      rw [if_pos hok]
      exact hasWgPeer_enable_self w.wg_live p.public_key p.ip
    · exact ih _ p hmem hok

theorem restore_fold_vl_wg_live (okX : String → Bool) :
    ∀ (L : List VlessPeer) (w : World), (L.foldl (restoreStepVl okX) w).wg_live = w.wg_live := by
  intro L
  induction L with
  | nil => intro w; rfl
  | cons r L ih =>
    intro w
    rw [List.foldl_cons, ih]
    unfold restoreStepVl
    split <;> rfl

theorem restore_fold_wg_xray (okW : String → Bool) :
    ∀ (L : List Peer) (w : World),
    (L.foldl (restoreStepWg okW) w).xray_clients = w.xray_clients := by
  intro L
  induction L with
  | nil => intro w; rfl
  | cons r L ih =>
    intro w
    rw [List.foldl_cons, ih]
    unfold restoreStepWg
    split <;> rfl

theorem restore_fold_vl_live_mono (okX : String → Bool) :
    ∀ (L : List VlessPeer) (w : World) (u : String),
    hasXrayClient w.xray_clients u = true →
    hasXrayClient ((L.foldl (restoreStepVl okX) w).xray_clients) u = true := by
  intro L
  induction L with
  | nil => intro w u h; exact h
  | cons r L ih =>
    intro w u h
    rw [List.foldl_cons]
    apply ih
    unfold restoreStepVl
    split
    · exact hasXrayClient_enable_mono w.xray_clients r.uuid r.name u h
    · exact h

theorem restore_fold_vl_live_mem (okX : String → Bool) :
    ∀ (L : List VlessPeer) (w : World) (p : VlessPeer), p ∈ L → okX p.uuid = true →
    hasXrayClient ((L.foldl (restoreStepVl okX) w).xray_clients) p.uuid = true := by
  intro L
  induction L with
  | nil => intro w p hp; simp at hp
  | cons r L ih =>
    intro w p hp hok
    rw [List.foldl_cons]
    rcases List.mem_cons.1 hp with hEq | hmem
    · subst hEq
      apply restore_fold_vl_live_mono
      unfold restoreStepVl
      rw [if_pos hok]
      exact hasXrayClient_enable_self w.xray_clients p.uuid p.name
    · exact ih _ p hmem hok

/-! ## Fixed environments and states used by witnesses and
counterexamples -/

/-- Sample point-to-point environment. -/
def envW : WgEnv := ⟨"SPK", "vpn.example.com:51820", "0.0.0.0/0", "1.1.1.1"⟩

/-- Sample relay environment. -/
def envV : VlessEnv := ⟨"sni.example.com", "203.0.113.5:443", "PBK", "", "VPN"⟩

/-! ## Claim theorems -/

/-- C1: the claim says that on a first-time provision in which the
daemon-activation step fails after the peer record was persisted, BOTH
engines delete the persisted record and surface the failure as their own
provisioning error.  The relay engine does (fourth conjunct), but at the
concrete failing input below the point-to-point engine keeps the freshly
persisted row in the store and lets the raw daemon error escape instead
of a provisioning error: a persisted record without live daemon presence
IS a resting state of the code. -/
theorem C1_wg_no_rollback :
    (get_or_create_peer_and_config envW 1000 "PRIV" "PUB" false "wg boom"
        emptyWorld 42 "Alice" (some 7)).1 = .wireguardError "wg boom" ∧
    ((get_or_create_peer_and_config envW 1000 "PRIV" "PUB" false "wg boom"
        emptyWorld 42 "Alice" (some 7)).2).store.peers =
      [⟨42, "Alice", "PRIV", "PUB", "10.8.0.10", 1000, some 605800, true⟩] ∧
    (get_or_create_vless_config envV 1000 "uuid-1" false "xray boom"
        emptyWorld 42 "Alice" (some 7)).1 =
      .vlessProvisionError "Failed to enable VLESS client: xray boom" ∧
    ((get_or_create_vless_config envV 1000 "uuid-1" false "xray boom"
        emptyWorld 42 "Alice" (some 7)).2).store.vless_peers = [] :=
  ⟨rfl, rfl, rfl, rfl⟩

/-- Promo store holding one unused 7-day code, no peers. -/
def promoWorld : World :=
  ⟨⟨[], [], [⟨"AB-JULY-7D", 7, 900, 1, none, none⟩], none⟩, [], []⟩

/-- C2: the claim says that redeeming a `days`-day promo code with no
existing peer provisions a fresh peer whose expiry is now + days*86400.
The handler computes that timestamp but passes it as the `ttl_days`
positional argument of the provisioning entrypoint, so the stored expiry
is now + (now + days*86400)*86400: at now = 1000 with a 7-day code the
success message shows 605800 while the store holds 52341121000. -/
theorem C2_promo_ttl_bug :
    (handle_promo_code envW 1000 "PRIV" "PUB" true "" true "AB-JULY-7D" 42 "Alice"
        promoWorld).outcome = .created 7 605800 ∧
    ((handle_promo_code envW 1000 "PRIV" "PUB" true "" true "AB-JULY-7D" 42 "Alice"
        promoWorld).world).store.peers.map (fun p => p.expires_at) = [some 52341121000] ∧
    (52341121000 : Int) ≠ 1000 + 7 * 86400 :=
  ⟨rfl, rfl, by decide⟩

/-- C3 counterexample: the claim says get_next_ip returns the prefix
followed by the maximum allocated last octet plus one for EVERY table
state, but the source reads only the most recently inserted row
(`ORDER BY id DESC LIMIT 1`): on a table whose octets are not increasing
in insertion order the two differ. -/
theorem C3_counterexample :
    get_next_ip [⟨1, "a", "k1", "P1", "10.8.0.50", 0, none, true⟩,
        ⟨2, "b", "k2", "P2", "10.8.0.20", 0, none, true⟩] = "10.8.0.21" ∧
    spec_next_ip [⟨1, "a", "k1", "P1", "10.8.0.50", 0, none, true⟩,
        ⟨2, "b", "k2", "P2", "10.8.0.20", 0, none, true⟩] = "10.8.0.51" ∧
    ("10.8.0.21" : String) ≠ "10.8.0.51" :=
  ⟨rfl, rfl, by decide⟩

/-- C3 amended: get_next_ip returns the prefix followed by the reserved
offset 10 on an empty table, and otherwise the prefix followed by the
last octet of the MOST RECENTLY INSERTED row plus one (not the maximum
octet); in particular N sequential non-concurrent first-time provisions
from an empty table still yield 10.8.0.10 through 10.8.0.(10+N-1),
because the engine itself only ever appends increasing octets. -/
theorem C3_next_ip (rows : List Peer) (subnetPfx : String) (r : Peer) (rs : List Peer)
    (hrows : rows = rs ++ [r]) (env : WgEnv) (now : Int) (keys : Int → String × String)
    (ids : List Int) (hnd : ids.Nodup) :
    get_next_ip [] subnetPfx = subnetPfx ++ Nat.repr FIRST_CLIENT_IP ∧
    get_next_ip rows subnetPfx = subnetPfx ++ Nat.repr (lastOctet r.ip + 1) ∧
    (provisionRun env now keys ids emptyWorld).store.peers.map (fun p => p.ip) =
      (List.range ids.length).map (fun j => "10.8.0." ++ Nat.repr (10 + j)) := by
  refine ⟨rfl, ?_, ?_⟩
  · subst hrows
    unfold get_next_ip
    simp
  · have h := (provisionRun_spec env now keys ids emptyWorld 0 hnd
      (by intro tid ht h0; simp [emptyWorld, emptyStore] at h0)
      (by simp [emptyWorld, emptyStore, seqIps])).1
    rw [h]
    simp [seqIps, FIRST_CLIENT_IP]

/-- C4: for an identity whose peer exists and is enabled, two sequential
provisioning calls (same identity, name and ttl; even with different
freshly drawn keypairs and daemon outcomes, which are never used) issue
no new credential material, leave the store without a second row (the
state is unchanged), and return byte-identical descriptors rendered from
the stored credential material under a fixed environment and server key
file. -/
theorem C4_provision_idempotent (env : WgEnv) (now1 now2 : Int)
    (pr1 pu1 pr2 pu2 e1 e2 : String) (ok1 ok2 : Bool)
    (w : World) (tid : Int) (name : String) (ttl : Option Int) (p : Peer)
    (hfind : get_peer_by_telegram_id w.store.peers tid = some p)
    (hen : p.enabled = true) :
    get_or_create_peer_and_config env now1 pr1 pu1 ok1 e1 w tid name ttl =
      (.config (generate_client_config env p.private_key p.ip), w) ∧
    get_or_create_peer_and_config env now2 pr2 pu2 ok2 e2
        (get_or_create_peer_and_config env now1 pr1 pu1 ok1 e1 w tid name ttl).2
        tid name ttl =
      (.config (generate_client_config env p.private_key p.ip), w) := by
  have h1 : get_or_create_peer_and_config env now1 pr1 pu1 ok1 e1 w tid name ttl =
      (.config (generate_client_config env p.private_key p.ip), w) := by
    unfold get_or_create_peer_and_config
    rw [hfind]
    simp [hen]
  refine ⟨h1, ?_⟩
  rw [h1]
  unfold get_or_create_peer_and_config
  rw [hfind]
  simp [hen]

/-- C10: provisioning for an existing peer decides solely on the enabled
flag and never inspects the expiry: for every stored peer — in
particular one whose expiry already lies in the past — the enabled flag
true yields the connection descriptor with the state unchanged, and the
domain error is returned exactly when the flag is false, in both
engines. -/
theorem C10_enabled_flag_only (env : WgEnv) (venv : VlessEnv) (now : Int)
    (pr pu e1 uu e2 : String) (ok1 ok2 : Bool) (w : World)
    (tid : Int) (name : String) (ttl : Option Int) :
    (∀ p, get_peer_by_telegram_id w.store.peers tid = some p →
      (p.enabled = true →
        get_or_create_peer_and_config env now pr pu ok1 e1 w tid name ttl =
          (.config (generate_client_config env p.private_key p.ip), w)) ∧
      (p.enabled = false →
        get_or_create_peer_and_config env now pr pu ok1 e1 w tid name ttl =
          (.provisionError "Access is disabled or expired", w))) ∧
    (∀ q, get_vless_peer_by_telegram_id w.store.vless_peers tid = some q →
      (q.enabled = true →
        get_or_create_vless_config venv now uu ok2 e2 w tid name ttl =
          (.link (generate_vless_link venv q.uuid name), w)) ∧
      (q.enabled = false →
        get_or_create_vless_config venv now uu ok2 e2 w tid name ttl =
          (.vlessProvisionError "Access is disabled or expired", w))) := by
  constructor
  · intro p hp
    constructor
    · intro hen
      unfold get_or_create_peer_and_config
      rw [hp]
      simp [hen]
    · intro hen
      unfold get_or_create_peer_and_config
      rw [hp]
      simp [hen]
  · intro q hq
    constructor
    · intro hen
      unfold get_or_create_vless_config
      rw [hq]
      simp [hen]
    · intro hen
      unfold get_or_create_vless_config
      rw [hq]
      simp [hen]

/-- C8: storage.set_protocol_policy rejects — before any persistence,
returning the stored policy unchanged together with the raised
ValueError — every combination in which the primary protocol is not an
enabled protocol (which covers both protocols disabled, so
setPolicy(false, false, anything) and setPolicy(true, false, vless) both
raise), and accepts setPolicy(true, true, wireguard), persisting it. -/
theorem C8_policy_validation (s : Option ProtocolPolicy) :
    (∀ (wgE vlE : Bool) (prim : String),
      ¬(prim = "wireguard" ∧ wgE = true) → ¬(prim = "vless" ∧ vlE = true) →
      (set_protocol_policy s wgE vlE prim).1 = s ∧
        ((set_protocol_policy s wgE vlE prim).2).isSome = true) ∧
    set_protocol_policy s true true "wireguard" =
      (some ⟨true, true, "wireguard"⟩, none) := by
  constructor
  · intro wgE vlE prim h1 h2
    unfold set_protocol_policy
    by_cases hw : prim = "wireguard"
    · have hwE : wgE = false := by
        cases wgE
        · rfl
        · exact absurd ⟨hw, rfl⟩ h1
      subst hw
      subst hwE
      cases vlE <;> simp
    · by_cases hv : prim = "vless"
      · have hvE : vlE = false := by
          cases vlE
          · rfl
          · exact absurd ⟨hv, rfl⟩ h2
        subst hv
        subst hvE
        cases wgE <;> simp
      · cases wgE <;> cases vlE <;> simp [hw, hv]
  · rfl

theorem sweepMark_tid (okW : String → Bool) (L : List Peer) (x : Peer) :
    (sweepMark okW L x).telegram_id = x.telegram_id := by
  unfold sweepMark
  split <;> rfl

/-- C5: for every peer with enabled true and expiry at or before now
(and the point-to-point protocol policy-enabled), the expiry sweep flips
the store row to disabled exactly when the daemon disable call for that
peer succeeds; when the daemon call fails the row is left untouched with
enabled still true, so a later sweep retries it.  (The table's UNIQUE
telegram_id constraint is the Nodup hypothesis.) -/
theorem C5_sweep_disable_only_on_success (now : Int) (okW okX : String → Bool)
    (w : World) (p : Peer)
    (hpol : (get_protocol_policy w.store.protocol_policy).wireguard_enabled = true)
    (hmem : p ∈ get_expired_peers now w.store.peers)
    (hnd : (w.store.peers.map (fun q => q.telegram_id)).Nodup) :
    ((if okW p.public_key then { p with enabled := false } else p) ∈
      (expire_peers_job now okW okX w).store.peers) ∧
    ∀ q ∈ (expire_peers_job now okW okX w).store.peers,
      q.telegram_id = p.telegram_id →
      q = if okW p.public_key then { p with enabled := false } else p := by
  have hrows := expire_job_peers now okW okX w hpol
  have hpw : p ∈ w.store.peers := List.mem_of_mem_filter hmem
  have hinj := List.inj_on_of_nodup_map hnd
  have hmark : sweepMark okW (get_expired_peers now w.store.peers) p =
      if okW p.public_key then { p with enabled := false } else p := by
    by_cases hok : okW p.public_key = true
    · have hany : (get_expired_peers now w.store.peers).any
          (fun r => okW r.public_key && r.telegram_id == p.telegram_id) = true := by
        simp only [List.any_eq_true]
        exact ⟨p, hmem, by simp [hok]⟩
      unfold sweepMark
      rw [if_pos hany, if_pos hok]
    · have hany : (get_expired_peers now w.store.peers).any
          (fun r => okW r.public_key && r.telegram_id == p.telegram_id) = false := by
        rw [List.any_eq_false]
        intro r hr
        simp only [Bool.and_eq_true, beq_iff_eq, not_and]
        intro hokr hEq
        have hrp : r = p := hinj (List.mem_of_mem_filter hr) hpw hEq
        rw [hrp] at hokr
        exact hok hokr
      unfold sweepMark
      rw [if_neg (by simp [hany]), if_neg hok]
  constructor
  · rw [hrows, ← hmark]
    exact List.mem_map_of_mem _ hpw
  · intro q hq hqt
    rw [hrows] at hq
    obtain ⟨x, hx, hxq⟩ := List.mem_map.1 hq
    have hxt : x.telegram_id = p.telegram_id := by
      rw [← hxq, sweepMark_tid] at hqt
      exact hqt
    have hxp : x = p := hinj hx hpw hxt
    rw [← hxq, hxp, hmark]

/-- C6: the startup restore pass never mutates the record store — every
table is returned unchanged — and for each policy-enabled protocol every
enabled, non-expired peer whose daemon call succeeds has been pushed
into that daemon's live peer set (an individual daemon failure skips
only that peer, it does not abort the batch). -/
theorem C6_restore_frame (now : Int) (okW okX : String → Bool) (w : World) :
    (restore_peers_on_startup now okW okX w).store = w.store ∧
    ((get_protocol_policy w.store.protocol_policy).wireguard_enabled = true →
      ∀ p ∈ get_peers_for_restore now w.store.peers, okW p.public_key = true →
        hasWgPeer (restore_peers_on_startup now okW okX w).wg_live p.public_key = true) ∧
    ((get_protocol_policy w.store.protocol_policy).vless_enabled = true →
      ∀ p ∈ get_vless_peers_for_restore now w.store.vless_peers, okX p.uuid = true →
        hasXrayClient (restore_peers_on_startup now okW okX w).xray_clients p.uuid = true) := by
  refine ⟨restore_store now okW okX w, ?_, ?_⟩
  · intro hpol p hp hok
    have hWg : hasWgPeer (restoreWg now okW w).wg_live p.public_key = true := by
      unfold restoreWg
      rw [if_pos hpol]
      exact restore_fold_wg_live_mem okW _ w p hp hok
    unfold restore_peers_on_startup
    split
    · rw [restore_fold_vl_wg_live]
      exact hWg
    · exact hWg
  · intro hpol p hp hok
    unfold restore_peers_on_startup
    rw [if_pos hpol]
    have hlist : (restoreWg now okW w).store.vless_peers = w.store.vless_peers := by
      rw [restoreWg_store]
    rw [hlist]
    exact restore_fold_vl_live_mem okX _ _ p hp hok

theorem update_expiry_expires (rows : List Peer) (tid : Int) (v : Int) :
    ∀ q ∈ update_expiry rows tid v, q.telegram_id = tid → q.expires_at = some v := by
  intro q hq hqt
  obtain ⟨x, hx, hxq⟩ := List.mem_map.1 hq
  by_cases h : x.telegram_id = tid
  · rw [← hxq]
    simp [h]
  · rw [← hxq] at hqt
    simp [h] at hqt

theorem set_enabled_expires (rows : List Peer) (tid : Int) (b : Bool) :
    ∀ q ∈ set_enabled rows tid b, ∃ x ∈ rows,
      q.expires_at = x.expires_at ∧ q.telegram_id = x.telegram_id := by
  intro q hq
  obtain ⟨x, hx, hxq⟩ := List.mem_map.1 hq
  refine ⟨x, hx, ?_⟩
  rw [← hxq]
  by_cases h : (x.telegram_id == tid) = true
  · simp [h]
  · simp [h]

theorem extension_math (now t d : Int) (hnow : 0 ≤ now) :
    (if (if t = 0 then now else t) < now then now else (if t = 0 then now else t)) +
        d * 24 * 60 * 60 =
      if now < t then t + d * 86400 else now + d * 86400 := by
  have h86 : d * 24 * 60 * 60 = d * 86400 := by ring
  rw [h86]
  split_ifs <;> omega

/-- C7: redemption by an existing peer.  When the current expiry `t`
lies strictly in the future the new stored expiry is t + days*86400;
when the current expiry is in the past (including the Python-falsy 0) or
NULL it is now + days*86400.  Both the reported outcome and every store
row of the redeeming identity carry that value. -/
theorem C7_redeem_extension (env : WgEnv) (now : Int) (pr pu e : String) (ok : Bool)
    (text : String) (uid : Int) (uname : String) (w : World)
    (promo : PromoCode) (p : Peer)
    (hnow : 0 ≤ now)
    (hfmt : promo_format_ok (pyStripUpper text) = true)
    (hget : get_promo_code w.store.promo_codes (pyStripUpper text) = some promo)
    (hact : promo.activated_at = none)
    (hdays : promo_code_days (pyStripUpper text) = promo.days)
    (hpeer : get_peer_by_telegram_id w.store.peers uid = some p) :
    (handle_promo_code env now pr pu ok e true text uid uname w).outcome =
      .extended promo.days (match p.expires_at with
        | some t => if now < t then t + promo.days * 86400 else now + promo.days * 86400
        | none => now + promo.days * 86400) ∧
    ∀ q ∈ (handle_promo_code env now pr pu ok e true text uid uname w).world.store.peers,
      q.telegram_id = uid →
      q.expires_at = some (match p.expires_at with
        | some t => if now < t then t + promo.days * 86400 else now + promo.days * 86400
        | none => now + promo.days * 86400) := by
  have hbne : (promo_code_days (pyStripUpper text) != promo.days) = false := by
    rw [hdays]
    exact bne_self_eq_false promo.days
  have hE : (if (match p.expires_at with
        | none => now
        | some e => if e = 0 then now else e) < now then now
      else (match p.expires_at with
        | none => now
        | some e => if e = 0 then now else e)) + promo.days * 24 * 60 * 60 =
      (match p.expires_at with
        | some t => if now < t then t + promo.days * 86400 else now + promo.days * 86400
        | none => now + promo.days * 86400) := by
    match p.expires_at with
    | none =>
      have h86 : promo.days * 24 * 60 * 60 = promo.days * 86400 := by ring
      simp [h86]
    | some t => exact extension_math now t promo.days hnow
  unfold handle_promo_code
  simp only [Bool.not_true, Bool.false_eq_true, if_false, hfmt, hget, hact, hbne, hpeer,
    Bool.not_false, if_true]
  rw [hE]
  refine ⟨rfl, ?_⟩
  intro q hq hqt
  by_cases hen : p.enabled = true
  · simp only [hen, Bool.not_true, Bool.false_eq_true, if_false] at hq
    exact update_expiry_expires w.store.peers uid _ q hq hqt
  · have hen' : p.enabled = false := by simpa using hen
    simp only [hen', Bool.not_false, if_true] at hq
    by_cases hok : ok = true
    · simp only [hok, if_true] at hq
      obtain ⟨x, hx, hxe, hxt⟩ := set_enabled_expires _ uid true q hq
      rw [hxe]
      exact update_expiry_expires w.store.peers uid _ x hx (hxt ▸ hqt)
    · simp only [hok, if_false] at hq
      exact update_expiry_expires w.store.peers uid _ q hq hqt

/-- C9: a syntactically valid, unused promo code whose embedded day
count differs from the stored days value is rejected as corrupted:
the handler returns the corruption reply, the whole state (peers,
expiries, promo activation) is unchanged, and the waiting flag stays
set. -/
theorem C9_promo_corruption_guard (env : WgEnv) (now : Int) (pr pu e : String) (ok : Bool)
    (text : String) (uid : Int) (uname : String) (w : World) (promo : PromoCode)
    (hfmt : promo_format_ok (pyStripUpper text) = true)
    (hget : get_promo_code w.store.promo_codes (pyStripUpper text) = some promo)
    (hact : promo.activated_at = none)
    (hdays : ¬(promo_code_days (pyStripUpper text) = promo.days)) :
    handle_promo_code env now pr pu ok e true text uid uname w = ⟨.corrupted, true, w⟩ := by
  have hbne : (promo_code_days (pyStripUpper text) != promo.days) = true := by
    simp only [bne_iff_ne, ne_eq]
    exact hdays
  unfold handle_promo_code
  simp only [Bool.not_true, Bool.false_eq_true, if_false, hfmt, hget, hact, hbne,
    Bool.not_false, if_true]

/-! ## Witnesses: each theorem with hypotheses evaluated at a concrete
input -/

/-- Existing enabled peer used by the C4 witness. -/
def peerA : Peer := ⟨42, "Alice", "PRIV", "PUB", "10.8.0.10", 0, some 5, true⟩

/-- World holding only `peerA`. -/
def worldA : World := ⟨⟨[peerA], [], [], none⟩, [], []⟩

/-- C3 witness: the amended allocator statement at a one-row table and a
three-identity run. -/
theorem C3_next_ip_witness :
    get_next_ip [] "10.8.0." = "10.8.0." ++ Nat.repr FIRST_CLIENT_IP ∧
    get_next_ip [⟨7, "n", "k", "P", "10.8.0.42", 0, none, true⟩] "10.8.0." =
      "10.8.0." ++ Nat.repr (lastOctet "10.8.0.42" + 1) ∧
    (provisionRun envW 0 (fun _ => ("k", "P")) [1, 2, 3] emptyWorld).store.peers.map
        (fun p => p.ip) =
      (List.range ([1, 2, 3] : List Int).length).map (fun j => "10.8.0." ++ Nat.repr (10 + j)) :=
  C3_next_ip [⟨7, "n", "k", "P", "10.8.0.42", 0, none, true⟩] "10.8.0."
    ⟨7, "n", "k", "P", "10.8.0.42", 0, none, true⟩ [] rfl envW 0 (fun _ => ("k", "P"))
    [1, 2, 3] (by decide)

/-- C4 witness: two calls on `worldA`, with different fresh keys and
daemon outcomes, both returning the stored-material descriptor and the
unchanged world. -/
theorem C4_provision_idempotent_witness :
    get_or_create_peer_and_config envW 100 "x1" "y1" true "" worldA 42 "Alice" (some 30) =
      (.config (generate_client_config envW "PRIV" "10.8.0.10"), worldA) ∧
    get_or_create_peer_and_config envW 200 "x2" "y2" false "zz"
        (get_or_create_peer_and_config envW 100 "x1" "y1" true "" worldA 42 "Alice"
          (some 30)).2 42 "Alice" (some 30) =
      (.config (generate_client_config envW "PRIV" "10.8.0.10"), worldA) :=
  C4_provision_idempotent envW 100 200 "x1" "y1" "x2" "y2" "" "zz" true false worldA 42
    "Alice" (some 30) peerA rfl rfl

/-- Expired peers and world used by the C5 witness. -/
def peerE1 : Peer := ⟨1, "a", "k1", "P1", "10.8.0.10", 0, some 50, true⟩

/-- Second expired peer of the C5 witness (its daemon call fails). -/
def peerE2 : Peer := ⟨2, "b", "k2", "P2", "10.8.0.11", 0, some 60, true⟩

/-- World holding the two expired peers, both live in the daemon. -/
def worldE : World :=
  ⟨⟨[peerE1, peerE2], [], [], none⟩,
    [("P1", "10.8.0.10/32"), ("P2", "10.8.0.11/32")], []⟩

/-- Daemon oracle of the C5 witness: disabling succeeds only for P1. -/
def okP1 : String → Bool := fun s => s == "P1"

/-- C5 witness: after the sweep at time 100 the P1 row (successful
daemon call) is the disabled copy of `peerE1`. -/
theorem C5_sweep_witness :
    ((if okP1 peerE1.public_key then { peerE1 with enabled := false } else peerE1) ∈
      (expire_peers_job 100 okP1 (fun _ => true) worldE).store.peers) ∧
    ∀ q ∈ (expire_peers_job 100 okP1 (fun _ => true) worldE).store.peers,
      q.telegram_id = peerE1.telegram_id →
      q = if okP1 peerE1.public_key then { peerE1 with enabled := false } else peerE1 :=
  C5_sweep_disable_only_on_success 100 okP1 (fun _ => true) worldE peerE1 rfl (by decide)
    (by decide)

/-- World of the C6 witness: one unlimited wg peer, one unlimited vless
peer, both protocols enabled by policy, empty daemon state. -/
def worldR : World :=
  ⟨⟨[⟨1, "a", "k1", "P1", "10.8.0.10", 0, none, true⟩],
    [⟨5, "v", "u5", 0, none, true⟩], [], some ⟨true, true, "wireguard"⟩⟩, [], []⟩

/-- C6 witness: the restore pass at time 100 leaves the store unchanged
and pushes both peers into their daemons. -/
theorem C6_restore_witness :
    (restore_peers_on_startup 100 (fun _ => true) (fun _ => true) worldR).store =
      worldR.store ∧
    hasWgPeer (restore_peers_on_startup 100 (fun _ => true) (fun _ => true)
      worldR).wg_live "P1" = true ∧
    hasXrayClient (restore_peers_on_startup 100 (fun _ => true) (fun _ => true)
      worldR).xray_clients "u5" = true :=
  ⟨(C6_restore_frame 100 (fun _ => true) (fun _ => true) worldR).1,
   (C6_restore_frame 100 (fun _ => true) (fun _ => true) worldR).2.1 rfl
     ⟨1, "a", "k1", "P1", "10.8.0.10", 0, none, true⟩ (by decide) rfl,
   (C6_restore_frame 100 (fun _ => true) (fun _ => true) worldR).2.2 rfl
     ⟨5, "v", "u5", 0, none, true⟩ (by decide) rfl⟩

/-- Enabled peer with future expiry 2000 used by the C7 witness. -/
def peerP : Peer := ⟨42, "Alice", "k", "P", "10.8.0.10", 0, some 2000, true⟩

/-- World of the C7 witness: `peerP` plus one unused 30-day code. -/
def worldP : World :=
  ⟨⟨[peerP], [], [⟨"AB-JULY-30D", 30, 900, 1, none, none⟩], none⟩, [], []⟩

/-- C7 witness: redeeming the 30-day code at now = 1000 (code typed in
lower case with spaces) extends the future expiry 2000 to
2000 + 30*86400 = 2594000. -/
theorem C7_redeem_extension_witness :
    (handle_promo_code envW 1000 "pr" "pu" true "" true " ab-july-30d " 42 "Alice"
      worldP).outcome = .extended 30 2594000 ∧
    ∀ q ∈ (handle_promo_code envW 1000 "pr" "pu" true "" true " ab-july-30d " 42 "Alice"
      worldP).world.store.peers, q.telegram_id = 42 → q.expires_at = some 2594000 := by
  have h := C7_redeem_extension envW 1000 "pr" "pu" "" true " ab-july-30d " 42 "Alice"
    worldP ⟨"AB-JULY-30D", 30, 900, 1, none, none⟩ peerP (by decide) (by decide) (by decide)
    rfl (by decide) rfl
  exact h

/-- C8 witness: setPolicy(true, false, vless) is rejected with the
stored policy unchanged, and setPolicy(true, true, wireguard) persists. -/
theorem C8_policy_validation_witness :
    ((set_protocol_policy (some ⟨true, false, "wireguard"⟩) true false "vless").1 =
      some ⟨true, false, "wireguard"⟩ ∧
     ((set_protocol_policy (some ⟨true, false, "wireguard"⟩) true false "vless").2).isSome =
      true) ∧
    set_protocol_policy (some ⟨true, false, "wireguard"⟩) true true "wireguard" =
      (some ⟨true, true, "wireguard"⟩, none) :=
  ⟨(C8_policy_validation (some ⟨true, false, "wireguard"⟩)).1 true false "vless"
    (by decide) (by decide),
   (C8_policy_validation (some ⟨true, false, "wireguard"⟩)).2⟩

/-- World of the C9 witness: one unused code AB-JULY-99D stored with
days = 30, no peers. -/
def worldC : World :=
  ⟨⟨[], [], [⟨"AB-JULY-99D", 30, 900, 1, none, none⟩], none⟩, [], []⟩

/-- C9 witness: redeeming AB-JULY-99D against the days = 30 row returns
the corruption reply and leaves the state and the waiting flag
untouched. -/
theorem C9_promo_corruption_guard_witness :
    handle_promo_code envW 1000 "pr" "pu" true "" true "AB-JULY-99D" 7 "Bob" worldC =
      ⟨.corrupted, true, worldC⟩ :=
  C9_promo_corruption_guard envW 1000 "pr" "pu" "" true "AB-JULY-99D" 7 "Bob" worldC
    ⟨"AB-JULY-99D", 30, 900, 1, none, none⟩ (by decide) (by decide) rfl (by decide)

/-- World of the C10 witness: a wg peer and a vless peer for identity
42, both enabled although their expiry 5 is long past now = 1000. -/
def worldX : World :=
  ⟨⟨[⟨42, "A", "k", "P", "10.8.0.10", 0, some 5, true⟩],
    [⟨42, "A", "u42", 0, some 5, true⟩], [], none⟩, [], []⟩

/-- C10 witness: both engines hand the enabled-but-expired identity its
descriptor instead of the disabled/expired error. -/
theorem C10_enabled_flag_only_witness :
    get_or_create_peer_and_config envW 1000 "x" "y" true "" worldX 42 "A" none =
      (.config (generate_client_config envW "k" "10.8.0.10"), worldX) ∧
    get_or_create_vless_config envV 1000 "u" true "" worldX 42 "A" none =
      (.link (generate_vless_link envV "u42" "A"), worldX) :=
  ⟨((C10_enabled_flag_only envW envV 1000 "x" "y" "" "u" "" true true worldX 42 "A" none).1
      ⟨42, "A", "k", "P", "10.8.0.10", 0, some 5, true⟩ rfl).1 rfl,
   ((C10_enabled_flag_only envW envV 1000 "x" "y" "" "u" "" true true worldX 42 "A" none).2
      ⟨42, "A", "u42", 0, some 5, true⟩ rfl).1 rfl⟩

end WGBot
